import Mathlib

/-!
Verification of the Dominion card-game engine (modules `cards.py`,
`containers.py`, `players.py`, `dominion.py`).

The development shallowly embeds the data model and the operations the
claims concern: card containers are Lean lists together with the
contiguous identifier scheme of `CardContainer`, player zones are lists
of cards, counters are integers (Python ints), and every stateful
method becomes a pure function on an explicit state record.  Random
shuffling is modelled by an arbitrary function parameter `sh` which the
theorems constrain to be a permutation.
-/

/-! ## Card catalog (`cards.py`)

A card is an immutable value.  `coin` is zero for non-Treasure cards and
`victory` is zero for non-Victory cards, matching the attributes the
Python classes define (`getattr(card, "victory", 0)` reads 0 when the
attribute is missing).  `isAction` corresponds to membership of `Action`
in the class mro, as tested by `get_parent_classes`. -/
structure Card where
  name : String
  cost : Nat
  coin : Nat
  victory : Nat
  isAction : Bool
  attack : Bool
  reaction : Bool
deriving DecidableEq

/-- Copper: cost 0, worth 1 coin. -/
def Copper : Card := ⟨"Copper", 0, 1, 0, false, false, false⟩

/-- Silver: cost 3, worth 2 coin. -/
def Silver : Card := ⟨"Silver", 3, 2, 0, false, false, false⟩

/-- Gold: cost 6, worth 3 coin. -/
def Gold : Card := ⟨"Gold", 6, 3, 0, false, false, false⟩

/-- Estate: cost 2, worth 1 victory point. -/
def Estate : Card := ⟨"Estate", 2, 0, 1, false, false, false⟩

/-- Duchy: cost 5, worth 3 victory points. -/
def Duchy : Card := ⟨"Duchy", 5, 0, 3, false, false, false⟩

/-- Province: cost 8, worth 6 victory points. -/
def Province : Card := ⟨"Province", 8, 0, 6, false, false, false⟩

/-- Cellar action card (cost 2). -/
def Cellar : Card := ⟨"Cellar", 2, 0, 0, true, false, false⟩

/-- Market action card (cost 5). -/
def Market : Card := ⟨"Market", 5, 0, 0, true, false, false⟩

/-- Merchant action card (cost 3). -/
def Merchant : Card := ⟨"Merchant", 3, 0, 0, true, false, false⟩

/-- Militia action card (cost 4), the catalog's only attack card. -/
def Militia : Card := ⟨"Militia", 4, 0, 0, true, true, false⟩

/-- Mine action card (cost 5). -/
def Mine : Card := ⟨"Mine", 5, 0, 0, true, false, false⟩

/-- Moat action card (cost 2), the catalog's only reaction card. -/
def Moat : Card := ⟨"Moat", 2, 0, 0, true, false, true⟩

/-- Remodel action card (cost 4). -/
def Remodel : Card := ⟨"Remodel", 4, 0, 0, true, false, false⟩

/-- Smithy action card (cost 4). -/
def Smithy : Card := ⟨"Smithy", 4, 0, 0, true, false, false⟩

/-- Village action card (cost 3). -/
def Village : Card := ⟨"Village", 3, 0, 0, true, false, false⟩

/-- Workshop action card (cost 3). -/
def Workshop : Card := ⟨"Workshop", 3, 0, 0, true, false, false⟩

/-- Festival action card (cost 5): +2 actions, +1 buy, +2 coin. -/
def Festival : Card := ⟨"Festival", 5, 0, 0, true, false, false⟩

/-- Laboratory action card (cost 5). -/
def Laboratory : Card := ⟨"Laboratory", 5, 0, 0, true, false, false⟩

/-! ## Card containers (`containers.py`)

A `CardContainer` holds `cards : List Card` and an `id_start : Int`; its
identifier list is always `[id_start, id_start+1, ...]`, re-assigned
after every mutation, so it never needs to be stored separately.  The
player containers and card decks all use `id_start = 0`. -/

/-- Python's index adjustment for sequences of length `n`: a negative
index counts from the end. -/
def pyIndex (i : Int) (n : Nat) : Int := if i < 0 then i + n else i

/-- Python `list.pop(i)` semantics: the (adjusted) index must be in
range, else `IndexError` is raised, modelled by `none`.  On success it
returns the removed element and the remaining list. -/
def listPop {α : Type} (l : List α) (i : Int) : Option (α × List α) :=
  if 0 ≤ pyIndex i l.length ∧ pyIndex i l.length < l.length then
    (l.get? (pyIndex i l.length).toNat).map
      (fun c => (c, l.take (pyIndex i l.length).toNat ++
                   l.drop ((pyIndex i l.length).toNat + 1)))
  else none

/-- Python `sorted(identifiers, reverse=True)` on a list of ints. -/
def sortDesc (l : List Int) : List Int := l.insertionSort (fun a b => b ≤ a)

/-- Errors that `CardContainer.remove_cards` can raise: the guarded
`DominionError` when more identifiers are given than cards exist, and
the unguarded Python `IndexError` escaping from `list.pop`. -/
inductive RemoveError where
  | dominion
  | indexErr
deriving DecidableEq

/-- Removal loop of `remove_cards`: pop each identifier (in the order
given, which the caller has sorted descending), offset by `id_start`,
collecting the removed cards in pop order. -/
def removeLoop (idStart : Int) :
    List Int → List Card → List Card → Except RemoveError (List Card × List Card)
  | [], cards, removed => Except.ok (removed, cards)
  | i :: rest, cards, removed =>
    match listPop cards (i - idStart) with
    | some (c, cards') => removeLoop idStart rest cards' (removed ++ [c])
    | none => Except.error RemoveError.indexErr

/-- Embedding of `CardContainer.remove_cards`: raise `DominionError` if
more identifiers are given than cards are contained; otherwise pop the
identifiers in descending order.  Returns (removed cards, remaining
cards). -/
def remove_cards (cards : List Card) (idStart : Int) (ids : List Int) :
    Except RemoveError (List Card × List Card) :=
  if ids.length > cards.length then Except.error RemoveError.dominion
  else removeLoop idStart (sortDesc ids) cards []

/-! ## Player state (`players.py`)

The four private zones of a `Player` plus the turn counters touched by
the claims.  Counters are Python ints, hence `Int`. -/
structure PlayerState where
  deck : List Card
  hand : List Card
  discardPile : List Card
  playMat : List Card
  actions : Int
  buys : Int
  turnCoins : Int
deriving DecidableEq

/-! ## Drawing cards (`Player.draw`)

The loop body of `Player.draw`: `transfer(self.deck, self.hand, [0])`
pops the top of the deck onto the hand; if the deck is empty that
transfer raises, and the handler moves the whole discard pile into the
deck (a full transfer removes in descending identifier order, hence
appends the discard pile reversed), shuffles it, and pops the top.
When both deck and discard are empty the inner transfer raises a
`DominionError` that propagates out of `draw`, modelled by `none`. -/
def drawOne (sh : List Card → List Card) (s : PlayerState) : Option PlayerState :=
  match s.deck with
  | c :: rest => some { s with deck := rest, hand := s.hand ++ [c] }
  | [] =>
    match sh s.discardPile.reverse with
    | c :: rest => some { s with deck := rest, discardPile := [], hand := s.hand ++ [c] }
    | [] => none

/-- The `for _ in range(num_cards)` loop of `Player.draw`. -/
def drawLoop (sh : List Card → List Card) : Nat → PlayerState → Option PlayerState
  | 0, s => some s
  | n + 1, s => (drawOne sh s).bind (drawLoop sh n)

/-- Embedding of `Player.draw`: raise `DominionError` (here `none`) up
front when more cards are requested than deck and discard pile hold
together, otherwise draw one card at a time.  The up-front check happens
before any mutation, so a failing call leaves every zone unchanged. -/
def draw (sh : List Card → List Card) (numCards : Nat) (s : PlayerState) :
    Option PlayerState :=
  if s.deck.length + s.discardPile.length < numCards then none
  else drawLoop sh numCards s

/-- Starting deck contents of `Player.__init__`: 7 Copper and 3 Estate. -/
def startingCards : List Card := List.replicate 7 Copper ++ List.replicate 3 Estate

/-- Embedding of `Player.__init__` restricted to the zones: shuffle the
starting deck, then draw the initial hand of 5; finally `reset_points`
sets actions = 1, buys = 1, turn coins = 0. -/
def initPlayer (sh : List Card → List Card) : Option PlayerState :=
  (draw sh 5
      { deck := sh startingCards, hand := [], discardPile := [], playMat := [],
        actions := 0, buys := 0, turnCoins := 0 }).map
    fun s => { s with actions := 1, buys := 1, turnCoins := 0 }

/-! ## Supply (`containers.py`)

The supply holds the list of base piles (constructed with exactly six
decks: Copper, Silver, Gold, Estate, Duchy, Province, in that order)
and the kingdom piles.  A pile is the list of its cards; only the
counts and the unit cost of the top card are observable to the claims.
The base identifiers are `0, ..., baseDecks.length - 1` and the kingdom
identifiers continue from `baseDecks.length` (its `id_start`). -/
structure Supply where
  baseDecks : List (List Card)
  kingdomDecks : List (List Card)
deriving DecidableEq

/-- Embedding of `Base.__init__`: Copper pile of `60 - 7 * players`
cards, fixed Silver and Gold piles, and victory piles of 8 cards for up
to two players and 12 otherwise. -/
def mkBase (numPlayers : Nat) : List (List Card) :=
  let numVictory := if numPlayers > 2 then 12 else 8
  [List.replicate (60 - numPlayers * 7) Copper,
   List.replicate 40 Silver,
   List.replicate 30 Gold,
   List.replicate numVictory Estate,
   List.replicate numVictory Duchy,
   List.replicate numVictory Province]

/-- The `first_game` kingdom of `Kingdom.first_game`: ten piles of ten. -/
def firstGameKingdom : List (List Card) :=
  [List.replicate 10 Cellar, List.replicate 10 Market, List.replicate 10 Merchant,
   List.replicate 10 Militia, List.replicate 10 Mine, List.replicate 10 Moat,
   List.replicate 10 Remodel, List.replicate 10 Smithy, List.replicate 10 Village,
   List.replicate 10 Workshop]

/-- Embedding of `Supply.__init__` for the default kingdom. -/
def mkSupply (numPlayers : Nat) : Supply :=
  { baseDecks := mkBase numPlayers, kingdomDecks := firstGameKingdom }

/-- Embedding of `Supply.check_end_game`: count the empty piles across
base and kingdom decks; the game has ended when more than two piles are
empty or when the Province pile (`base_supply.decks[5]`) is empty.  The
method only reads pile counts and mutates nothing, which the embedding
expresses by being a plain function of the supply. -/
def check_end_game (s : Supply) : Bool :=
  let numEmptyPiles := (s.baseDecks ++ s.kingdomDecks).countP (fun d => d.length == 0)
  if numEmptyPiles > 2 then true
  else if (s.baseDecks.getD 5 []).length == 0 then true
  else false

/-! ## Buying (`Human.buy`)

One iteration of the prompt loop of `Human.buy`, given the player's
integer response.  `coins` is the stored `self.coins` computed by
`set_coins` before the loop; `buys` and `turn_coins` are the counters
the success branch debits, and the bought card is transferred from the
top of the chosen pile to the discard pile. -/
structure BuyState where
  supply : Supply
  buys : Int
  turnCoins : Int
  coins : Int
  discardPile : List Card
deriving DecidableEq

/-- Outcome of one iteration of the buy prompt loop: `done` breaks out
of the loop with the updated state, `retry` re-prompts (a `continue`)
carrying the state the iteration left behind. -/
inductive BuyOutcome where
  | done (s : BuyState)
  | retry (s : BuyState)
deriving DecidableEq

/-- The pile a response addresses, if any: responses `0 ≤ r < 6` address
the base decks and responses `base.length ≤ r < base.length + kingdom.length`
address the kingdom decks (whose `id_start` is the base length). -/
def supplyDeckAt (sup : Supply) (r : Int) : Option (List Card) :=
  if 0 ≤ r ∧ r < (sup.baseDecks.length : Int) then
    some (sup.baseDecks.getD r.toNat [])
  else if (sup.baseDecks.length : Int) ≤ r ∧
      r < (sup.baseDecks.length : Int) + (sup.kingdomDecks.length : Int) then
    some (sup.kingdomDecks.getD (r - sup.baseDecks.length).toNat [])
  else none

/-- Embedding of one iteration of `Human.buy`'s loop body for an integer
response `r`.  An unknown identifier, an empty pile, or a top card whose
cost exceeds the stored coins all re-prompt without touching any state;
a valid purchase debits `turn_coins` by the cost, decrements `buys`,
moves the pile's top card to the discard pile and breaks. -/
def buyStep (s : BuyState) (r : Int) : BuyOutcome :=
  if 0 ≤ r ∧ r < (s.supply.baseDecks.length : Int) then
    if (s.supply.baseDecks.getD r.toNat []).length < 1 then BuyOutcome.retry s
    else if (((s.supply.baseDecks.getD r.toNat []).headD Copper).cost : Int) > s.coins then
      BuyOutcome.retry s
    else BuyOutcome.done
      { s with
        turnCoins := s.turnCoins -
          ((s.supply.baseDecks.getD r.toNat []).headD Copper).cost,
        buys := s.buys - 1,
        supply := { s.supply with
          baseDecks :=
            s.supply.baseDecks.set r.toNat (s.supply.baseDecks.getD r.toNat []).tail },
        discardPile := s.discardPile ++ [(s.supply.baseDecks.getD r.toNat []).headD Copper] }
  else if (s.supply.baseDecks.length : Int) ≤ r ∧
      r < (s.supply.baseDecks.length : Int) + (s.supply.kingdomDecks.length : Int) then
    if (s.supply.kingdomDecks.getD (r - s.supply.baseDecks.length).toNat []).length < 1 then
      BuyOutcome.retry s
    else if (((s.supply.kingdomDecks.getD
        (r - s.supply.baseDecks.length).toNat []).headD Copper).cost : Int) > s.coins then
      BuyOutcome.retry s
    else BuyOutcome.done
      { s with
        turnCoins := s.turnCoins -
          ((s.supply.kingdomDecks.getD (r - s.supply.baseDecks.length).toNat []).headD Copper).cost,
        buys := s.buys - 1,
        supply := { s.supply with
          kingdomDecks :=
            s.supply.kingdomDecks.set (r - s.supply.baseDecks.length).toNat
              (s.supply.kingdomDecks.getD (r - s.supply.baseDecks.length).toNat []).tail },
        discardPile := s.discardPile ++
          [(s.supply.kingdomDecks.getD (r - s.supply.baseDecks.length).toNat []).headD Copper] }
  else BuyOutcome.retry s

/-! ## Playing an action card (`Human.action`)

The successful branch of `Human.action`: with `response` a valid hand
identifier naming an Action card, the method decrements `actions` by 1,
transfers the card from hand to play mat, runs the card's effect, and
then transfers the play mat's last card (`[-1]`) to the discard pile.
The card effect is a parameter, since each card's `action` method
supplies it. -/
def playActionCard (eff : PlayerState → PlayerState) (i : Nat) (s : PlayerState) :
    Option PlayerState :=
  if h : i < s.hand.length then
    if (s.hand.get ⟨i, h⟩).isAction then
      match listPop (eff { s with actions := s.actions - 1,
                                  hand := s.hand.eraseIdx i,
                                  playMat := s.playMat ++ [s.hand.get ⟨i, h⟩] }).playMat
          (-1) with
      | some (c2, mat') =>
        some { eff { s with actions := s.actions - 1,
                            hand := s.hand.eraseIdx i,
                            playMat := s.playMat ++ [s.hand.get ⟨i, h⟩] } with
               playMat := mat',
               discardPile :=
                 (eff { s with actions := s.actions - 1,
                               hand := s.hand.eraseIdx i,
                               playMat := s.playMat ++ [s.hand.get ⟨i, h⟩] }).discardPile
                   ++ [c2] }
      | none => none
    else none
  else none

/-- Effect of `Festival.action`: +2 actions, +1 buy, +2 coin for the
current player. -/
def festivalAction (s : PlayerState) : PlayerState :=
  { s with actions := s.actions + 2, buys := s.buys + 1, turnCoins := s.turnCoins + 2 }

/-- First step of `Player.cleanup`: `transfer(self.play_mat,
self.discard_pile)` moves the whole play mat into the discard pile (a
full transfer removes in descending identifier order, appending the
source reversed). -/
def matToDiscard (s : PlayerState) : PlayerState :=
  { s with discardPile := s.discardPile ++ s.playMat.reverse, playMat := [] }

/-! ## Militia's attack (`Militia.action`)

The loop over `config.other_players`.  A defender's interaction is the
sequence of outcomes of their `discard` prompts: `none` is a Pass
(raising `DominionPassError`, which the attack loop catches and
ignores) and `some i` is a valid hand identifier to discard (an invalid
identifier merely re-prompts inside `Human.discard` without any state
change, so it never surfaces as an outcome).  The while loop runs until
the defender's hand has at most 3 cards; if the outcomes run out first
the loop is still blocked prompting, modelled by `none`. -/
def militiaForceDiscard : List (Option Nat) → PlayerState → Option PlayerState
  | [], s => if s.hand.length ≤ 3 then some s else none
  | Option.none :: rest, s =>
    if s.hand.length ≤ 3 then some s
    else militiaForceDiscard rest s
  | Option.some i :: rest, s =>
    if s.hand.length ≤ 3 then some s
    else if h : i < s.hand.length then
      militiaForceDiscard rest
        { s with hand := s.hand.eraseIdx i,
                 discardPile := s.discardPile ++ [s.hand.get ⟨i, h⟩] }
    else militiaForceDiscard rest s

/-- Moat test of `Militia.action`: is a card named "Moat" in the hand? -/
def hasMoat (s : PlayerState) : Bool := s.hand.any (fun c => c.name == "Moat")

/-- Resolution of the Militia attack against a single defender: a
defender revealing Moat is skipped untouched, anyone else is forced to
discard down to 3 cards. -/
def militiaDefender (choices : List (Option Nat)) (s : PlayerState) :
    Option PlayerState :=
  if hasMoat s then some s else militiaForceDiscard choices s

/-- The `for player in config.other_players` loop of `Militia.action`,
pairing every defender with their choice sequence. -/
def militiaOthers : List (List (Option Nat) × PlayerState) → Option (List PlayerState)
  | [] => some []
  | (choices, s) :: rest =>
    (militiaDefender choices s).bind fun s' =>
      (militiaOthers rest).map fun rest' => s' :: rest'

/-! ## End-game ranking (`Game.end_game`)

Scoring first sorts `zip(end_game_victory, end_game_players)` with
`sorted(..., reverse=True)` and then runs a place-assignment loop over
the sorted victory totals: the first player gets place 1, and each
later player gets the previous place, incremented by one exactly when
their total differs from the previous player's.  The sort compares
`(victory_points, player)` tuples: Python decides by the integer scores
and falls through to the `Human` objects only when the scores are
equal; distinct `Human` objects are unequal (identity equality) and
define no ordering, so a tie makes the comparison raise `TypeError`,
which aborts scoring before any place is assigned. -/
def placesGo : Nat → Int → List Int → List Nat
  | _, _, [] => []
  | place, prev, v :: rest =>
    let place' := if v = prev then place else place + 1
    place' :: placesGo place' v rest

/-- Embedding of the place-assignment loop of `Game.end_game`, applied
to the list of victory totals in descending order (the list the
preceding sort produces when it does not raise). -/
def places : List Int → List Nat
  | [] => []
  | v :: rest => 1 :: placesGo 1 v rest

/-- Python comparison of two `(victory_points, player)` tuples from
`Game.end_game`: decided by the scores when they differ; equal scores
fall through to comparing the distinct `Human` objects, which define no
ordering, so the comparison raises `TypeError` (the error case). -/
def pyScoreLt (a b : Int) : Except Unit Bool :=
  if a < b then Except.ok true
  else if b < a then Except.ok false
  else Except.error ()

/-- Insertion of a score into a descending-sorted list of scores using
the fallible tuple comparison.  Together with `pySortDesc` this models
`sorted(zip(...), reverse=True)`: a comparison sort must compare two
equal-key tuples directly before it can order them (they end up
adjacent), so the sort raises `TypeError` exactly when a tie is met and
otherwise produces the descending order, as CPython's sort does. -/
def pyInsertDesc (x : Int) : List Int → Except Unit (List Int)
  | [] => Except.ok [x]
  | y :: rest =>
    match pyScoreLt y x with
    | Except.ok true => Except.ok (x :: y :: rest)
    | Except.ok false =>
      match pyInsertDesc x rest with
      | Except.ok l' => Except.ok (y :: l')
      | Except.error e => Except.error e
    | Except.error e => Except.error e

/-- The fallible descending sort of `Game.end_game` (see
`pyInsertDesc`). -/
def pySortDesc : List Int → Except Unit (List Int)
  | [] => Except.ok []
  | x :: rest =>
    match pySortDesc rest with
    | Except.ok l' => pyInsertDesc x l'
    | Except.error e => Except.error e

/-- The scoring pipeline of `Game.end_game` after every player is
finalized: sort the victory totals (paired with their non-comparable
players) in descending order, then assign places with the loop; a
`TypeError` from the sort aborts scoring with no places assigned. -/
def end_game_ranking (scores : List Int) : Except Unit (List Nat) :=
  match pySortDesc scores with
  | Except.ok sorted => Except.ok (places sorted)
  | Except.error e => Except.error e

/-! ## Helper lemmas -/

theorem listPop_concat {α : Type} (l : List α) (c : α) :
    listPop (l ++ [c]) (-1) = some (c, l) := by
  have hlen : (l ++ [c]).length = l.length + 1 := by simp
  have hpy : pyIndex (-1) ((l ++ [c]).length) = (l.length : Int) := by
    unfold pyIndex
    rw [if_pos (by omega : (-1 : Int) < 0), hlen]
    push_cast
    omega
  unfold listPop
  rw [hpy, if_pos (by rw [hlen]; constructor <;> [omega; (push_cast; omega)])]
  have htn : ((l.length : Int)).toNat = l.length := by omega
  rw [htn, List.get?_eq_getElem?, List.getElem?_concat_length]
  rw [List.take_left]
  rw [List.drop_eq_nil_of_le (by simp)]
  simp

theorem get_cons_eraseIdx_perm {α : Type} (l : List α) (i : Nat) (h : i < l.length) :
    (l.get ⟨i, h⟩ :: l.eraseIdx i).Perm l := by
  rw [List.eraseIdx_eq_take_drop_succ]
  conv_rhs => rw [← List.take_append_drop i l, ← List.getElem_cons_drop l i h]
  simp only [List.get_eq_getElem]
  exact (List.perm_middle).symm

theorem removeLoop_ne_dominion (idStart : Int) (ids : List Int)
    (cards removed : List Card) :
    removeLoop idStart ids cards removed ≠ Except.error RemoveError.dominion := by
  induction ids generalizing cards removed with
  | nil => simp [removeLoop]
  | cons i rest ih =>
    unfold removeLoop
    rcases h : listPop cards (i - idStart) with _ | ⟨c, cards'⟩
    · simp
    · simpa using ih cards' (removed ++ [c])

theorem sortDesc_perm (l : List Int) : (sortDesc l).Perm l :=
  List.perm_insertionSort _ l

theorem sortDesc_sorted (l : List Int) :
    (sortDesc l).Sorted (fun a b => b ≤ a) :=
  List.sorted_insertionSort _ l

theorem drawOne_total (sh : List Card → List Card) (hsh : ∀ l, (sh l).Perm l)
    (s : PlayerState) (h : 1 ≤ s.deck.length + s.discardPile.length) :
    ∃ s', drawOne sh s = some s' ∧
      s'.deck.length + s'.discardPile.length + 1 = s.deck.length + s.discardPile.length ∧
      s'.hand.length = s.hand.length + 1 := by
  rcases hdeck : s.deck with _ | ⟨c, rest⟩
  · have hlen : (sh s.discardPile.reverse).length = s.discardPile.length := by
      rw [(hsh _).length_eq, List.length_reverse]
    rcases hsd : sh s.discardPile.reverse with _ | ⟨c, rest⟩
    · exfalso
      rw [hsd] at hlen
      rw [hdeck] at h
      simp at hlen
      simp [← hlen] at h
    · refine ⟨_, by unfold drawOne; rw [hdeck, hsd], ?_, ?_⟩
      · rw [hsd] at hlen
        simp only [List.length_cons] at hlen
        simp [hdeck]
        omega
      · simp
  · exact ⟨_, by unfold drawOne; rw [hdeck], by simp; omega, by simp⟩

theorem drawLoop_total (sh : List Card → List Card) (hsh : ∀ l, (sh l).Perm l) :
    ∀ (n : Nat) (s : PlayerState),
      n ≤ s.deck.length + s.discardPile.length →
      ∃ s', drawLoop sh n s = some s' ∧
        s'.deck.length + s'.discardPile.length + n =
          s.deck.length + s.discardPile.length ∧
        s'.hand.length = s.hand.length + n := by
  intro n
  induction n with
  | zero => exact fun s _ => ⟨s, rfl, by omega, by omega⟩
  | succ n ih =>
    intro s h
    obtain ⟨s1, h1, h2, h3⟩ := drawOne_total sh hsh s (by omega)
    obtain ⟨s', h1', h2', h3'⟩ := ih s1 (by omega)
    refine ⟨s', ?_, by omega, by omega⟩
    unfold drawLoop
    rw [h1]
    exact h1'

theorem placesGo_length (p : Nat) (x : Int) (t : List Int) :
    (placesGo p x t).length = t.length := by
  induction t generalizing p x with
  | nil => rfl
  | cons v rest ih => simp [placesGo, ih]

theorem placesGo_getD_zero (p : Nat) (x v : Int) (rest : List Int) :
    (placesGo p x (v :: rest)).getD 0 0 = if v = x then p else p + 1 := by
  simp [placesGo]

theorem placesGo_getD_succ (p : Nat) (x : Int) (t : List Int) (i : Nat)
    (hi : i + 1 < t.length) :
    (placesGo p x t).getD (i + 1) 0 =
      if t.getD (i + 1) 0 = t.getD i 0 then (placesGo p x t).getD i 0
      else (placesGo p x t).getD i 0 + 1 := by
  induction t generalizing p x i with
  | nil => simp at hi
  | cons v rest ih =>
    rcases i with _ | j
    · rcases rest with _ | ⟨w, rest'⟩
      · simp at hi
      · simp only [placesGo, List.getD_cons_succ, List.getD_cons_zero]
    · simp only [placesGo, List.getD_cons_succ]
      exact ih _ v j (by simpa using hi)

theorem militiaForceDiscard_ok (choices : List (Option Nat)) (s s' : PlayerState)
    (h : militiaForceDiscard choices s = some s') :
    s'.hand.length ≤ 3 ∧
    s'.deck = s.deck ∧ s'.playMat = s.playMat ∧
    s'.actions = s.actions ∧ s'.buys = s.buys ∧ s'.turnCoins = s.turnCoins ∧
    ∃ t, s'.discardPile = s.discardPile ++ t ∧ (s'.hand ++ t).Perm s.hand := by
  induction choices generalizing s with
  | nil =>
    unfold militiaForceDiscard at h
    by_cases h3 : s.hand.length ≤ 3
    · rw [if_pos h3] at h
      cases h
      exact ⟨h3, rfl, rfl, rfl, rfl, rfl, [], by simp, by simp⟩
    · rw [if_neg h3] at h
      cases h
  | cons choice rest ih =>
    rcases choice with _ | i
    · unfold militiaForceDiscard at h
      by_cases h3 : s.hand.length ≤ 3
      · rw [if_pos h3] at h
        cases h
        exact ⟨h3, rfl, rfl, rfl, rfl, rfl, [], by simp, by simp⟩
      · rw [if_neg h3] at h
        exact ih s h
    · unfold militiaForceDiscard at h
      by_cases h3 : s.hand.length ≤ 3
      · rw [if_pos h3] at h
        cases h
        exact ⟨h3, rfl, rfl, rfl, rfl, rfl, [], by simp, by simp⟩
      · rw [if_neg h3] at h
        by_cases hvi : i < s.hand.length
        · rw [dif_pos hvi] at h
          obtain ⟨g1, g2, g3, g4, g5, g6, t1, ht1, ht2⟩ := ih _ h
          simp only at g2 g3 g4 g5 g6 ht1 ht2
          refine ⟨g1, g2, g3, g4, g5, g6, s.hand.get ⟨i, hvi⟩ :: t1, ?_, ?_⟩
          · rw [ht1]
            simp
          · exact (List.perm_middle).trans
              ((ht2.cons _).trans (get_cons_eraseIdx_perm s.hand i hvi))
        · rw [dif_neg hvi] at h
          exact ih s h

theorem pyInsertDesc_not_mem (x : Int) (l : List Int)
    (hs : l.Sorted (fun a b => b ≤ a)) (hx : x ∉ l) :
    ∃ l', pyInsertDesc x l = Except.ok l' ∧ l'.Perm (x :: l) ∧
      l'.Sorted (fun a b => b ≤ a) := by
  induction l with
  | nil => exact ⟨[x], rfl, List.Perm.refl _, by simp⟩
  | cons y rest ih =>
    rcases lt_trichotomy y x with hlt | heq | hgt
    · refine ⟨x :: y :: rest, ?_, List.Perm.refl _, ?_⟩
      · unfold pyInsertDesc pyScoreLt
        rw [if_pos hlt]
      · rw [List.sorted_cons]
        refine ⟨?_, hs⟩
        intro b hb
        rcases List.mem_cons.mp hb with rfl | hb'
        · omega
        · have := (List.sorted_cons.mp hs).1 b hb'
          omega
    · exact absurd (heq ▸ List.mem_cons_self y rest) hx
    · obtain ⟨l', h1, h2, h3⟩ :=
        ih (List.sorted_cons.mp hs).2 (fun hm => hx (List.mem_cons_of_mem y hm))
      refine ⟨y :: l', ?_, ?_, ?_⟩
      · unfold pyInsertDesc pyScoreLt
        rw [if_neg (by omega), if_pos hgt, h1]
      · exact (h2.cons y).trans (List.Perm.swap x y rest)
      · rw [List.sorted_cons]
        refine ⟨?_, h3⟩
        intro b hb
        rcases List.mem_cons.mp (h2.mem_iff.mp hb) with rfl | hb'
        · omega
        · exact (List.sorted_cons.mp hs).1 b hb'

theorem pyInsertDesc_mem (x : Int) (l : List Int)
    (hs : l.Sorted (fun a b => b ≤ a)) (hx : x ∈ l) :
    pyInsertDesc x l = Except.error () := by
  induction l with
  | nil => cases hx
  | cons y rest ih =>
    rcases lt_trichotomy y x with hlt | heq | hgt
    · exfalso
      rcases List.mem_cons.mp hx with rfl | hx'
      · omega
      · have := (List.sorted_cons.mp hs).1 x hx'
        omega
    · unfold pyInsertDesc pyScoreLt
      rw [if_neg (by omega), if_neg (by omega)]
    · have hx' : x ∈ rest := by
        rcases List.mem_cons.mp hx with h | h
        · exact absurd hgt (by omega)
        · exact h
      unfold pyInsertDesc pyScoreLt
      rw [if_neg (by omega), if_pos hgt, ih (List.sorted_cons.mp hs).2 hx']

theorem pySortDesc_nodup (l : List Int) (h : l.Nodup) :
    ∃ l', pySortDesc l = Except.ok l' ∧ l'.Perm l ∧
      l'.Sorted (fun a b => b ≤ a) := by
  induction l with
  | nil => exact ⟨[], rfl, List.Perm.refl _, by simp⟩
  | cons x rest ih =>
    obtain ⟨l1, h1, h2, h3⟩ := ih (List.Nodup.of_cons h)
    have hx : x ∉ l1 := fun hm => (List.nodup_cons.mp h).1 (h2.mem_iff.mp hm)
    obtain ⟨l2, g1, g2, g3⟩ := pyInsertDesc_not_mem x l1 h3 hx
    refine ⟨l2, ?_, g2.trans (h2.cons x), g3⟩
    unfold pySortDesc
    rw [h1]
    exact g1

theorem pySortDesc_dup (l : List Int) (h : ¬ l.Nodup) :
    pySortDesc l = Except.error () := by
  induction l with
  | nil => exact absurd List.nodup_nil h
  | cons x rest ih =>
    by_cases hr : rest.Nodup
    · have hx : x ∈ rest := by
        by_contra hc
        exact h (List.nodup_cons.mpr ⟨hc, hr⟩)
      obtain ⟨l1, h1, h2, h3⟩ := pySortDesc_nodup rest hr
      unfold pySortDesc
      rw [h1]
      exact pyInsertDesc_mem x l1 h3 (h2.mem_iff.mpr hx)
    · unfold pySortDesc
      rw [ih hr]

theorem places_dense_structure (l : List Int) :
    (places l).length = l.length ∧
    (0 < l.length → (places l).getD 0 0 = 1) ∧
    (∀ i, i + 1 < l.length →
      (places l).getD (i + 1) 0 =
        if l.getD (i + 1) 0 = l.getD i 0 then (places l).getD i 0
        else (places l).getD i 0 + 1) := by
  rcases l with _ | ⟨v, rest⟩
  · simp [places]
  · refine ⟨by simp [places, placesGo_length], fun _ => rfl, fun i hi => ?_⟩
    rcases i with _ | j
    · rcases rest with _ | ⟨w, rest'⟩
      · simp at hi
      · simp only [places, List.getD_cons_succ, List.getD_cons_zero]
        exact placesGo_getD_zero 1 v w rest'
    · simp only [places, List.getD_cons_succ]
      exact placesGo_getD_succ 1 v rest j (by simpa using hi)

/-! ## Claim theorems -/

/-- C1 (counterexample): at the claim's final scores `[30, 30, 25, 10]`
the scoring of `Game.end_game` raises `TypeError` while sorting the two
tied `(score, player)` tuples — distinct `Human` objects define no
ordering — so no places are assigned at all, and in particular not
`[1, 1, 3, 4]`.  The place-assignment loop itself, applied to the
descending totals, would produce the dense ranking `[1, 1, 2, 3]`,
which also differs from the claimed competition ranking. -/
theorem places_counterexample :
    end_game_ranking [30, 30, 25, 10] = Except.error () ∧
    places [30, 30, 25, 10] = [1, 1, 2, 3] ∧
    places [30, 30, 25, 10] ≠ [1, 1, 3, 4] :=
  ⟨rfl, by decide, by decide⟩

/-- C1 (amended): end-game scoring sorts the (victoryPoints, player)
pairs in descending order before assigning places.  Tied totals make
the tuple comparison fall through to the Player objects, which define
no ordering, so the sort raises `TypeError` and scoring aborts with no
places assigned — at final scores `[30, 30, 25, 10]` the program
crashes rather than ranking anyone.  On tie-free totals the sort
succeeds, ordering the scores descending, and the place-assignment
loop assigns places by dense ranking: the first player receives place
1, a total equal to the previous one would share its place, and each
strictly lower total receives the previous place plus one — so the
loop would turn the descending list `[30, 30, 25, 10]` into
`[1, 1, 2, 3]`, not `[1, 1, 3, 4]`. -/
theorem end_game_ranking_spec :
    (∀ scores : List Int, ¬ scores.Nodup →
      end_game_ranking scores = Except.error ()) ∧
    (∀ scores : List Int, scores.Nodup →
      ∃ sorted, pySortDesc scores = Except.ok sorted ∧ sorted.Perm scores ∧
        sorted.Sorted (fun a b => b ≤ a) ∧
        end_game_ranking scores = Except.ok (places sorted)) ∧
    (∀ l : List Int,
      (places l).length = l.length ∧
      (0 < l.length → (places l).getD 0 0 = 1) ∧
      (∀ i, i + 1 < l.length →
        (places l).getD (i + 1) 0 =
          if l.getD (i + 1) 0 = l.getD i 0 then (places l).getD i 0
          else (places l).getD i 0 + 1)) := by
  refine ⟨?_, ?_, places_dense_structure⟩
  · intro scores h
    unfold end_game_ranking
    rw [pySortDesc_dup scores h]
  · intro scores h
    obtain ⟨sorted, h1, h2, h3⟩ := pySortDesc_nodup scores h
    refine ⟨sorted, h1, h2, h3, ?_⟩
    unfold end_game_ranking
    rw [h1]

/-- C1 (witness): the amended statement evaluated concretely — the tied
scores `[30, 30, 25, 10]` crash the sort, the tie-free scores
`[40, 30, 25, 10]` are ranked, and the loop facts hold on the tied
list. -/
theorem end_game_ranking_spec_witness :
    end_game_ranking [30, 30, 25, 10] = Except.error () ∧
    (∃ sorted, pySortDesc [40, 30, 25, 10] = Except.ok sorted ∧
      sorted.Perm [40, 30, 25, 10] ∧
      sorted.Sorted (fun a b => b ≤ a) ∧
      end_game_ranking [40, 30, 25, 10] = Except.ok (places sorted)) ∧
    (places [30, 30, 25, 10]).length = ([30, 30, 25, 10] : List Int).length :=
  ⟨end_game_ranking_spec.1 [30, 30, 25, 10] (by decide),
   end_game_ranking_spec.2.1 [40, 30, 25, 10] (by decide),
   (end_game_ranking_spec.2.2 [30, 30, 25, 10]).1⟩

/-- C4: `Supply.check_end_game` returns true exactly when at least three
piles across base and kingdom supplies are empty or the Province pile
(the sixth base deck) is empty; being a plain function of the supply,
it mutates nothing. -/
theorem check_end_game_spec (s : Supply) :
    check_end_game s = true ↔
      3 ≤ (s.baseDecks ++ s.kingdomDecks).countP (fun d => d.length == 0) ∨
      (s.baseDecks.getD 5 []).length = 0 := by
  unfold check_end_game
  by_cases h1 : (s.baseDecks ++ s.kingdomDecks).countP (fun d => d.length == 0) > 2
  · rw [if_pos h1]
    constructor
    · intro _
      left
      omega
    · intro _
      rfl
  · rw [if_neg h1]
    by_cases h2 : ((s.baseDecks.getD 5 []).length == 0) = true
    · rw [if_pos h2]
      have h2' : (s.baseDecks.getD 5 []).length = 0 := by simpa using h2
      constructor
      · intro _
        right
        exact h2'
      · intro _
        rfl
    · rw [if_neg h2]
      have h2' : (s.baseDecks.getD 5 []).length ≠ 0 := by simpa using h2
      constructor
      · intro hf
        simp at hf
      · rintro (h3 | h3)
        · exact absurd h3 (by omega)
        · exact absurd h3 h2'

/-- C5: `Player.draw(n)` fails (raising `InsufficientCardsError` from
the single up-front check, before any zone is touched) exactly when the
deck and discard pile together hold fewer than `n` cards; whenever they
hold at least `n`, the draw succeeds and the hand grows by exactly `n`
cards, reshuffling the discard pile into the deck whenever the deck
runs out mid-draw (the shuffle `sh` may be any permutation). -/
theorem draw_spec (sh : List Card → List Card) (hsh : ∀ l, (sh l).Perm l)
    (n : Nat) (s : PlayerState) :
    (draw sh n s = none ↔ s.deck.length + s.discardPile.length < n) ∧
    (n ≤ s.deck.length + s.discardPile.length →
      ∃ s', draw sh n s = some s' ∧ s'.hand.length = s.hand.length + n) := by
  constructor
  · constructor
    · intro h
      by_contra hc
      push_neg at hc
      obtain ⟨s', h1, _, _⟩ := drawLoop_total sh hsh n s hc
      rw [draw, if_neg (by omega), h1] at h
      cases h
    · intro h
      rw [draw, if_pos h]
  · intro h
    obtain ⟨s', h1, _, h3⟩ := drawLoop_total sh hsh n s h
    refine ⟨s', ?_, h3⟩
    rw [draw, if_neg (by omega), h1]

/-- C5 (witness): drawing 2 from a player with a 1-card deck and a
1-card discard pile succeeds across the reshuffle boundary, and the
failure condition is equivalent to the count check, at `sh = id`. -/
theorem draw_spec_witness :
    ∃ s', draw id 2 ⟨[Copper], [], [Estate], [], 0, 0, 0⟩ = some s' ∧
      s'.hand.length =
        (⟨[Copper], [], [Estate], [], 0, 0, 0⟩ : PlayerState).hand.length + 2 :=
  (draw_spec id (fun l => List.Perm.refl l) 2
    ⟨[Copper], [], [Estate], [], 0, 0, 0⟩).2 (by decide)

/-- C8: at construction for `p` players (1 ≤ p ≤ 4) each victory pile
(Estate, Duchy, Province) holds 8 cards when `p ≤ 2` and 12 otherwise,
the Copper pile holds `60 - 7p` cards, the shuffled starting deck holds
exactly 7 Copper and 3 Estate (10 cards), and the initial 5-card hand
draw leaves 5 cards across deck and discard pile. -/
theorem game_setup_spec (p : Nat) (hp1 : 1 ≤ p) (hp4 : p ≤ 4)
    (sh : List Card → List Card) (hsh : ∀ l, (sh l).Perm l) :
    ((mkBase p).getD 3 []).length = (if p ≤ 2 then 8 else 12) ∧
    ((mkBase p).getD 4 []).length = (if p ≤ 2 then 8 else 12) ∧
    ((mkBase p).getD 5 []).length = (if p ≤ 2 then 8 else 12) ∧
    ((mkBase p).getD 0 []).length = 60 - 7 * p ∧
    (sh startingCards).count Copper = 7 ∧
    (sh startingCards).count Estate = 3 ∧
    (sh startingCards).length = 10 ∧
    ∃ s, initPlayer sh = some s ∧ s.hand.length = 5 ∧
      s.deck.length + s.discardPile.length = 5 := by
  have hv : (if p > 2 then 12 else 8) = (if p ≤ 2 then 8 else 12) := by
    by_cases hc : p ≤ 2
    · rw [if_pos hc, if_neg (by omega)]
    · rw [if_neg hc, if_pos (by omega)]
  have hcount : ∀ c : Card, (sh startingCards).count c = startingCards.count c :=
    fun c => (hsh startingCards).count_eq c
  have hlen10 : (sh startingCards).length = 10 := by
    rw [(hsh startingCards).length_eq]
    simp [startingCards]
  refine ⟨?_, ?_, ?_, ?_, ?_, ?_, hlen10, ?_⟩
  · simp [mkBase, hv]
  · simp [mkBase, hv]
  · simp [mkBase, hv]
  · simp [mkBase]
    omega
  · rw [hcount]
    simp [startingCards, List.count_append, List.count_replicate]
    decide
  · rw [hcount]
    simp [startingCards, List.count_append, List.count_replicate]
    decide
  · have h5 : 5 ≤ (sh startingCards).length + ([] : List Card).length := by
      rw [hlen10]
      simp
    obtain ⟨s', h1, h2, h3⟩ :=
      drawLoop_total sh hsh 5
        ⟨sh startingCards, [], [], [], 0, 0, 0⟩ (by simpa using h5)
    refine ⟨{ s' with actions := 1, buys := 1, turnCoins := 0 }, ?_, ?_, ?_⟩
    · unfold initPlayer draw
      rw [if_neg (by simp only at h2 ⊢; omega), h1]
      rfl
    · simp only at h3
      simpa using h3
    · simp only at h2
      simp only [List.length_nil] at h2
      simp
      omega

/-- Per-defender outcome of the Militia attack, as the claim states it:
a defender holding Moat is skipped entirely unchanged; a defender
without Moat ends with at most 3 cards in hand, with deck, play mat and
counters untouched, and with some list `t` of cards moved from their
hand to the end of their own discard pile (so hand plus moved cards is
a permutation of the original hand). -/
def militiaRel (s s' : PlayerState) : Prop :=
  (hasMoat s = true → s' = s) ∧
  (hasMoat s = false →
    s'.hand.length ≤ 3 ∧
    s'.deck = s.deck ∧ s'.playMat = s.playMat ∧
    s'.actions = s.actions ∧ s'.buys = s.buys ∧ s'.turnCoins = s.turnCoins ∧
    ∃ t, s'.discardPile = s.discardPile ++ t ∧ (s'.hand ++ t).Perm s.hand)

/-- C2: when the loop of `Militia.action` over the other players
completes, every defender whose hand contains Moat is skipped with
their state (hand included) completely unchanged, and every defender
without Moat ends with at most 3 cards in hand, the discarded cards
having moved only from that defender's hand to that defender's own
discard pile, with their other zones and counters unchanged.  Each
defender's resolution touches only that defender's state, so all other
players' zones are unaffected by it. -/
theorem militia_attack_spec (pairs : List (List (Option Nat) × PlayerState))
    (ds' : List PlayerState) (h : militiaOthers pairs = some ds') :
    List.Forall₂ militiaRel (pairs.map Prod.snd) ds' := by
  induction pairs generalizing ds' with
  | nil =>
    unfold militiaOthers at h
    cases h
    exact List.Forall₂.nil
  | cons pr rest ih =>
    obtain ⟨choices, s⟩ := pr
    unfold militiaOthers at h
    rcases h1 : militiaDefender choices s with _ | s1
    · rw [h1] at h
      cases h
    · rw [h1] at h
      rcases h2 : militiaOthers rest with _ | rest'
      · rw [h2] at h
        cases h
      · rw [h2] at h
        simp at h
        subst h
        refine List.Forall₂.cons ?_ (ih rest' h2)
        unfold militiaDefender at h1
        by_cases hm : hasMoat s = true
        · rw [if_pos hm] at h1
          cases h1
          exact ⟨fun _ => rfl, fun hf => absurd hm (by simp [hf])⟩
        · rw [if_neg hm] at h1
          refine ⟨fun ht => absurd ht hm, fun _ => ?_⟩
          exact militiaForceDiscard_ok choices s s1 h1

/-- C2 (witness): a two-defender attack, one holding Moat (skipped
unchanged) and one with five Coppers (discards down to exactly 3). -/
theorem militia_attack_spec_witness :
    List.Forall₂ militiaRel
      (([(([] : List (Option Nat)),
          (⟨[], [Copper, Moat, Copper, Copper, Copper], [], [], 1, 1, 0⟩ : PlayerState)),
         ([some 0, some 1],
          (⟨[], [Copper, Copper, Copper, Copper, Copper], [], [], 1, 1, 0⟩ : PlayerState))]).map
        Prod.snd)
      [⟨[], [Copper, Moat, Copper, Copper, Copper], [], [], 1, 1, 0⟩,
       ⟨[], [Copper, Copper, Copper], [Copper, Copper], [], 1, 1, 0⟩] :=
  militia_attack_spec
    [(([] : List (Option Nat)),
      ⟨[], [Copper, Moat, Copper, Copper, Copper], [], [], 1, 1, 0⟩),
     ([some 0, some 1],
      ⟨[], [Copper, Copper, Copper, Copper, Copper], [], [], 1, 1, 0⟩)]
    [⟨[], [Copper, Moat, Copper, Copper, Copper], [], [], 1, 1, 0⟩,
     ⟨[], [Copper, Copper, Copper], [Copper, Copper], [], 1, 1, 0⟩]
    (by decide)

/-- C3 (counterexample): against a defender with five Coppers and no
Moat, answering Pass does not end the forced discarding: with Pass as
the only answer the loop is still blocked demanding discards (`none`,
not a successful exit retaining 5 cards), and after a Pass followed by
two discards the resolution completes with exactly 3 cards in hand —
the defender cannot retain a hand larger than 3. -/
theorem militia_pass_counterexample :
    militiaDefender [Option.none]
      ⟨[], [Copper, Copper, Copper, Copper, Copper], [], [], 1, 1, 0⟩ = none ∧
    (militiaDefender [Option.none, some 0, some 0]
      ⟨[], [Copper, Copper, Copper, Copper, Copper], [], [], 1, 1, 0⟩).map
        (fun s => s.hand.length) = some 3 := by
  constructor <;> decide

/-- C3 (amended): `Militia.action` catches the Pass signal raised by a
defender's `discard` and ignores it, so a Pass while the hand still
holds more than 3 cards merely re-prompts (the resolution proceeds
exactly as with the remaining answers), and any completed resolution of
a defender without Moat leaves at most 3 cards in hand. -/
theorem militia_pass_continues (s : PlayerState) (cs : List (Option Nat))
    (hm : hasMoat s = false) :
    (3 < s.hand.length →
      militiaForceDiscard (Option.none :: cs) s = militiaForceDiscard cs s) ∧
    (∀ s', militiaDefender cs s = some s' → s'.hand.length ≤ 3) := by
  constructor
  · intro h3
    conv_lhs => unfold militiaForceDiscard
    rw [if_neg (by omega)]
  · intro s' h
    unfold militiaDefender at h
    rw [hm] at h
    simp only [Bool.false_eq_true, if_false] at h
    exact (militiaForceDiscard_ok cs s s' h).1

/-- C3 (witness): the amended statement evaluated for the five-Copper
defender with answers Pass then two discards. -/
theorem militia_pass_continues_witness :
    (3 < (⟨[], [Copper, Copper, Copper, Copper, Copper], [], [], 1, 1, 0⟩ :
        PlayerState).hand.length →
      militiaForceDiscard (Option.none :: [some 0, some 0])
        ⟨[], [Copper, Copper, Copper, Copper, Copper], [], [], 1, 1, 0⟩ =
      militiaForceDiscard [some 0, some 0]
        ⟨[], [Copper, Copper, Copper, Copper, Copper], [], [], 1, 1, 0⟩) ∧
    (∀ s', militiaDefender [some 0, some 0]
        ⟨[], [Copper, Copper, Copper, Copper, Copper], [], [], 1, 1, 0⟩ = some s' →
      s'.hand.length ≤ 3) :=
  militia_pass_continues
    ⟨[], [Copper, Copper, Copper, Copper, Copper], [], [], 1, 1, 0⟩
    [some 0, some 0] (by decide)

theorem playActionCard_eq (eff : PlayerState → PlayerState)
    (i : Nat) (s : PlayerState) (hi : i < s.hand.length)
    (hact : (s.hand.get ⟨i, hi⟩).isAction = true)
    (heff : ∀ t, (eff t).playMat = t.playMat) :
    playActionCard eff i s =
      some { eff { s with actions := s.actions - 1,
                          hand := s.hand.eraseIdx i,
                          playMat := s.playMat ++ [s.hand.get ⟨i, hi⟩] } with
             playMat := s.playMat,
             discardPile :=
               (eff { s with actions := s.actions - 1,
                             hand := s.hand.eraseIdx i,
                             playMat := s.playMat ++ [s.hand.get ⟨i, hi⟩] }).discardPile
                 ++ [s.hand.get ⟨i, hi⟩] } := by
  unfold playActionCard
  rw [dif_pos hi, if_pos hact]
  have hmat : (eff { s with actions := s.actions - 1,
                            hand := s.hand.eraseIdx i,
                            playMat := s.playMat ++ [s.hand.get ⟨i, hi⟩] }).playMat =
      s.playMat ++ [s.hand.get ⟨i, hi⟩] := heff _
  rw [hmat, listPop_concat]

/-- C6: playing an action card decrements the player's actions by one
before the card's effect runs, so playing Festival (+2 actions, +1 buy,
+2 coin) from a state with actions = 1, buys = 1 and no turn coins
leaves actions = 2, buys = 2 and turn coins = 2. -/
theorem festival_play_spec (s : PlayerState) (i : Nat) (hi : i < s.hand.length)
    (hc : s.hand.get ⟨i, hi⟩ = Festival)
    (ha : s.actions = 1) (hb : s.buys = 1) (ht : s.turnCoins = 0) :
    ∃ s', playActionCard festivalAction i s = some s' ∧
      s'.actions = 2 ∧ s'.buys = 2 ∧ s'.turnCoins = 2 := by
  refine ⟨_, playActionCard_eq festivalAction i s hi
    (by rw [hc]; rfl) (fun t => rfl), ?_, ?_, ?_⟩
  · simp [festivalAction]
    omega
  · simp [festivalAction]
    omega
  · simp [festivalAction]
    omega

/-- C6 (witness): playing the only card of a one-card hand, a Festival,
from actions = 1, buys = 1, turn coins = 0. -/
theorem festival_play_spec_witness :
    ∃ s', playActionCard festivalAction 0
        ⟨[], [Festival], [], [], 1, 1, 0⟩ = some s' ∧
      s'.actions = 2 ∧ s'.buys = 2 ∧ s'.turnCoins = 2 :=
  festival_play_spec ⟨[], [Festival], [], [], 1, 1, 0⟩ 0
    (by decide) (by decide) (by decide) (by decide) (by decide)

/-- C7: a buy attempt naming a supply pile whose top card costs more
than the player's coins is rejected with a re-prompt that carries the
state unchanged, so the player's buys, turn coins, discard pile and
every supply pile are exactly as before the attempt. -/
theorem buy_too_expensive (s : BuyState) (r : Int) (c : Card) (rest : List Card)
    (hdeck : supplyDeckAt s.supply r = some (c :: rest))
    (hcost : (c.cost : Int) > s.coins) :
    buyStep s r = BuyOutcome.retry s := by
  unfold supplyDeckAt at hdeck
  unfold buyStep
  by_cases h1 : 0 ≤ r ∧ r < (s.supply.baseDecks.length : Int)
  · rw [if_pos h1] at hdeck
    have hd : s.supply.baseDecks.getD r.toNat [] = c :: rest := by
      exact Option.some_injective _ hdeck
    rw [if_pos h1, hd]
    rw [if_neg (by simp)]
    rw [if_pos (by simpa using hcost)]
  · rw [if_neg h1] at hdeck
    by_cases h2 : (s.supply.baseDecks.length : Int) ≤ r ∧
        r < (s.supply.baseDecks.length : Int) + (s.supply.kingdomDecks.length : Int)
    · rw [if_pos h2] at hdeck
      have hd : s.supply.kingdomDecks.getD (r - s.supply.baseDecks.length).toNat [] =
          c :: rest := by
        exact Option.some_injective _ hdeck
      rw [if_neg h1, if_pos h2, hd]
      rw [if_neg (by simp)]
      rw [if_pos (by simpa using hcost)]
    · rw [if_neg h2] at hdeck
      cases hdeck

/-- C7 (witness): trying to buy from a one-pile supply holding Gold
(cost 6) with 3 coins is rejected and the state is returned intact. -/
theorem buy_too_expensive_witness :
    buyStep ⟨⟨[[Gold]], []⟩, 1, 0, 3, []⟩ 0 =
      BuyOutcome.retry ⟨⟨[[Gold]], []⟩, 1, 0, 3, []⟩ :=
  buy_too_expensive ⟨⟨[[Gold]], []⟩, 1, 0, 3, []⟩ 0 Gold [] (by decide) (by decide)

/-- C10: a successfully played action card is moved from the play mat
to the discard pile as soon as its effect (which, as for every card in
the catalog, leaves the play mat alone) completes: starting from an
empty play mat the play ends with the mat empty again and the played
card at the end of the discard pile, and the cleanup-time transfer of
the play mat into the discard pile moves no cards. -/
theorem play_mat_empty_invariant (eff : PlayerState → PlayerState)
    (heff : ∀ t, (eff t).playMat = t.playMat)
    (i : Nat) (s s' : PlayerState) (hmat : s.playMat = [])
    (hp : playActionCard eff i s = some s') :
    s'.playMat = [] ∧ matToDiscard s' = s' ∧
    ∃ hi : i < s.hand.length, s'.discardPile.getLast? = some (s.hand.get ⟨i, hi⟩) := by
  by_cases hi : i < s.hand.length
  · by_cases hact : (s.hand.get ⟨i, hi⟩).isAction = true
    · rw [playActionCard_eq eff i s hi hact heff, Option.some_inj] at hp
      subst hp
      refine ⟨by simpa using hmat, ?_, hi, by simp [List.getLast?_concat]⟩
      unfold matToDiscard
      rw [show ({ eff { s with actions := s.actions - 1,
                               hand := s.hand.eraseIdx i,
                               playMat := s.playMat ++ [s.hand.get ⟨i, hi⟩] } with
                  playMat := s.playMat,
                  discardPile :=
                    (eff { s with actions := s.actions - 1,
                                  hand := s.hand.eraseIdx i,
                                  playMat := s.playMat ++ [s.hand.get ⟨i, hi⟩] }).discardPile
                      ++ [s.hand.get ⟨i, hi⟩] } : PlayerState).playMat = s.playMat from rfl]
      rw [hmat]
      simp
    · unfold playActionCard at hp
      rw [dif_pos hi, if_neg hact] at hp
      cases hp
  · unfold playActionCard at hp
    rw [dif_neg hi] at hp
    cases hp

/-- C10 (witness): playing the Festival of a one-card hand from an
empty play mat. -/
theorem play_mat_empty_invariant_witness :
    (⟨[], [], [Festival], [], 2, 2, 2⟩ : PlayerState).playMat = [] ∧
    matToDiscard ⟨[], [], [Festival], [], 2, 2, 2⟩ =
      (⟨[], [], [Festival], [], 2, 2, 2⟩ : PlayerState) ∧
    ∃ hi : 0 < (⟨[], [Festival], [], [], 1, 1, 0⟩ : PlayerState).hand.length,
      (⟨[], [], [Festival], [], 2, 2, 2⟩ : PlayerState).discardPile.getLast? =
        some ((⟨[], [Festival], [], [], 1, 1, 0⟩ : PlayerState).hand.get ⟨0, hi⟩) :=
  play_mat_empty_invariant festivalAction (fun t => rfl) 0
    ⟨[], [Festival], [], [], 1, 1, 0⟩ ⟨[], [], [Festival], [], 2, 2, 2⟩
    (by decide) (by decide)

/-- C8 (witness): the construction facts evaluated for a fresh 2-player
game with the identity shuffle, including the 46-card Copper pile. -/
theorem game_setup_spec_witness :
    ((mkBase 2).getD 3 []).length = (if 2 ≤ 2 then 8 else 12) ∧
    ((mkBase 2).getD 4 []).length = (if 2 ≤ 2 then 8 else 12) ∧
    ((mkBase 2).getD 5 []).length = (if 2 ≤ 2 then 8 else 12) ∧
    ((mkBase 2).getD 0 []).length = 60 - 7 * 2 ∧
    (id startingCards).count Copper = 7 ∧
    (id startingCards).count Estate = 3 ∧
    (id startingCards).length = 10 ∧
    ∃ s, initPlayer id = some s ∧ s.hand.length = 5 ∧
      s.deck.length + s.discardPile.length = 5 :=
  game_setup_spec 2 (by decide) (by decide) id (fun l => List.Perm.refl l)

/-- C9 (counterexample): `remove_cards` on a one-card container with
`id_start = 0` and identifier list `[-1]` succeeds (Python's
`list.pop` accepts the negative offset and removes the last card),
although `-1` lies outside the container's identifier range `[0, 1)`,
so an out-of-range identifier does not always raise an indexing
error. -/
theorem remove_cards_counterexample :
    remove_cards [Copper] 0 [-1] = Except.ok ([Copper], []) ∧
    ¬ (0 ≤ (-1 : Int) ∧ (-1 : Int) < 0 + (1 : Int)) := by
  constructor
  · rfl
  · decide

/-- C9 (amended): `remove_cards` validates only the number of
identifiers: it raises the recoverable `DominionError` exactly when
more identifiers are given than cards exist; for a valid-size list
containing an identifier whose offset from `id_start` is at least the
card count, the underlying `list.pop` raises an `IndexError` that is
not a `DominionError`; but an identifier with a negative offset within
`[-count, 0)` is silently accepted and pops from the container's end,
so the guarded branch protects against neither kind of invalid
identifier. -/
theorem remove_cards_validation :
    (∀ (cards : List Card) (idStart : Int) (ids : List Int),
      (remove_cards cards idStart ids = Except.error RemoveError.dominion ↔
        cards.length < ids.length)) ∧
    (∀ (cards : List Card) (idStart : Int) (ids : List Int) (i : Int),
      i ∈ ids → ids.length ≤ cards.length →
      (idStart + cards.length : Int) ≤ i →
      remove_cards cards idStart ids = Except.error RemoveError.indexErr) := by
  constructor
  · intro cards idStart ids
    constructor
    · intro h
      by_contra hc
      push_neg at hc
      rw [remove_cards, if_neg (by omega)] at h
      exact removeLoop_ne_dominion idStart (sortDesc ids) cards [] h
    · intro h
      rw [remove_cards, if_pos (by omega)]
  · intro cards idStart ids i hmem hlen hbig
    rw [remove_cards, if_neg (by omega)]
    have hperm := sortDesc_perm ids
    have hmem' : i ∈ sortDesc ids := (hperm.mem_iff).mpr hmem
    rcases hsd : sortDesc ids with _ | ⟨a, tail⟩
    · rw [hsd] at hmem'
      cases hmem'
    · rw [hsd] at hmem'
      have hsorted := sortDesc_sorted ids
      rw [hsd] at hsorted
      have hia : i ≤ a := by
        rcases List.mem_cons.mp hmem' with h | h
        · omega
        · exact (List.sorted_cons.mp hsorted).1 i h
      have hfalse : ¬(0 ≤ pyIndex (a - idStart) cards.length ∧
          pyIndex (a - idStart) cards.length < (cards.length : Int)) := by
        unfold pyIndex
        rw [if_neg (by omega)]
        omega
      have hpop : listPop cards (a - idStart) = none := by
        unfold listPop
        rw [if_neg hfalse]
      unfold removeLoop
      rw [hpop]

/-- C9 (witness): the guarded error fires exactly on oversize identifier
lists, and identifier 5 on a one-card container raises the indexing
error. -/
theorem remove_cards_validation_witness :
    (remove_cards [Copper] 0 [0, 1] = Except.error RemoveError.dominion ↔
      ([Copper] : List Card).length < ([0, 1] : List Int).length) ∧
    remove_cards [Copper] 0 [5] = Except.error RemoveError.indexErr :=
  ⟨remove_cards_validation.1 [Copper] 0 [0, 1],
   remove_cards_validation.2 [Copper] 0 [5] 5 (by decide) (by decide) (by decide)⟩
